import Mathlib

/-!
# Verification of the discosrv discovery server core

A shallow embedding of the discosrv UDP discovery server (`main.go`,
`types.go`): URL/host-port string handling, the registry merge (`update`),
the query handler (`handleQueryV2`), the announce address normalization
(`handleAnnounceV2`), the expiry sweeper (`clean`), the per-IP token-bucket
rate limiter (`limit`), and the dispatch loop's control flow.

Strings are modelled as lists of characters (`Str`), so that the splitting
functions (`url.Parse`, `net.SplitHostPort`, `net.JoinHostPort`) can be given
as structurally recursive definitions amenable to proof.  Go library
functions are modelled at the fidelity the repository's use of them needs:
`url.Parse` keeps the scheme and the authority (addresses here carry no path
or query), and both a missing `://` and a missing port are modelled as the
respective `none` results, matching the error paths the Go code takes.
-/

/-- Character-list strings, so splitting functions are provable by induction. -/
abbrev Str := List Char

/-- Turn a Lean string literal into the character-list representation. -/
def str (s : String) : Str := s.data

/-- `types.go`: one announced address with its last-seen wall-clock time
(epoch seconds). -/
structure address where
  address : Str
  seen : Int
deriving Repr, DecidableEq

/-- `types.go`: one relay entry (address string and latency in ms). -/
structure relay where
  address : Str
  latency : Int
deriving Repr, DecidableEq

/-- `types.go`: the value stored in the registry under one device id. -/
structure addressList where
  addresses : List address
  relays : List relay
deriving Repr, DecidableEq

/-- Split a character list at the first occurrence of the separator `sep`,
returning the part before and the part after (the separator removed).
`none` when the separator does not occur. -/
def splitSeq (sep : Str) : Str → Option (Str × Str)
  | [] => none
  | c :: cs =>
    if sep.isPrefixOf (c :: cs) then
      some ([], (c :: cs).drop sep.length)
    else
      match splitSeq sep cs with
      | some (a, b) => some (c :: a, b)
      | none => none

/-- Split a character list at the LAST occurrence of the character `c`,
returning the part before and after; `none` when `c` does not occur.
This is how `net.SplitHostPort` locates the host/port boundary. -/
def splitLastChar (c : Char) : Str → Option (Str × Str)
  | [] => none
  | x :: xs =>
    match splitLastChar c xs with
    | some (a, b) => some (x :: a, b)
    | none => if x = c then some ([], xs) else none

/-- Model of a parsed URL: scheme and authority (`host:port`).  The
addresses this server handles have no path, query or fragment. -/
structure URL where
  scheme : Str
  host : Str
deriving Repr, DecidableEq

/-- Model of `url.Parse` for `scheme://host:port` address strings: split at
the first `://`.  A string without `://` yields no usable host, which the
Go code turns into a skipped address either at `url.Parse` or at the
subsequent `net.SplitHostPort`; both failure paths are modelled as `none`. -/
def urlParse (s : Str) : Option URL :=
  match splitSeq (str "://") s with
  | some (sch, rest) => some ⟨sch, rest⟩
  | none => none

/-- Model of `(*url.URL).String` for the URLs above. -/
def urlString (u : URL) : Str :=
  u.scheme ++ str "://" ++ u.host

/-- Model of `net.SplitHostPort`: split at the last colon; error (`none`)
when there is no colon. -/
def splitHostPort (s : Str) : Option (Str × Str) :=
  splitLastChar ':' s

/-- Model of `net.JoinHostPort`: bracket the host when it contains a colon
(IPv6 literal), then join with a colon. -/
def joinHostPort (host port : Str) : Str :=
  if host.contains ':' then
    str "[" ++ host ++ str "]" ++ str ":" ++ port
  else
    host ++ str ":" ++ port

/-- `main.go` (`update`, inner loop): normalize an address string by
substituting port 22000 into its `host:port`, as both the new and each
existing address are normalized before comparison.  `none` models the
`url.Parse` / `net.SplitHostPort` error paths. -/
def normalize22000 (s : Str) : Option Str :=
  match urlParse s with
  | none => none
  | some uri =>
    match splitHostPort uri.host with
    | none => none
    | some (host, _) => some (urlString ⟨uri.scheme, joinHostPort host (str "22000")⟩)

/-- `main.go` (`update`): index of the first existing address whose
port-normalized form equals `n`; existing addresses that fail to parse are
skipped (the `continue` branches of the inner loop). -/
def findMatch (n : Str) : List address → Option Nat
  | [] => none
  | ea :: rest =>
    match normalize22000 ea.address with
    | none => (findMatch n rest).map (· + 1)
    | some en =>
      if en = n then some 0 else (findMatch n rest).map (· + 1)

/-- `main.go:357-388` (`update`, one iteration of the `nextAddr` loop):
merge one incoming address into the existing list.  The Go code parses the
NEW address inside the loop over EXISTING addresses, so when the existing
list is empty the parse never runs and the new address is appended
unconditionally; when it is non-empty, a new address that fails to parse is
dropped (`continue nextAddr`), a port-normalized match replaces that entry
in place, and otherwise the new address is appended. -/
def mergeOne (ex : List address) (na : address) : List address :=
  match ex with
  | [] => ex ++ [na]
  | _ :: _ =>
    match normalize22000 na.address with
    | none => ex
    | some n =>
      match findMatch n ex with
      | some i => ex.set i na
      | none => ex ++ [na]

/-- `main.go:349-405` (`update`): read the existing record (absence gives
the empty record), merge each incoming address in order, replace the relay
list wholesale, and produce the record written back. -/
def update (stored : Option addressList) (addrs : List address)
    (relays : List relay) : addressList :=
  let base := match stored with
    | some al => al
    | none => ⟨[], []⟩
  ⟨addrs.foldl mergeOne base.addresses, relays⟩

-- Sanity examples (merge behavior on concrete inputs).
example :
    update (some ⟨[⟨str "tcp://1.2.3.4:9000", 100⟩], []⟩)
      [⟨str "tcp://1.2.3.4:9001", 200⟩] []
    = ⟨[⟨str "tcp://1.2.3.4:9001", 200⟩], []⟩ := by decide

example :
    update none [⟨str "not a url", 5⟩] []
    = ⟨[⟨str "not a url", 5⟩], []⟩ := by decide

/-- `main.go:26`: the retention window, in seconds. -/
def cacheLimitSeconds : Int := 3600

/-- `main.go:200-220` (`handleAnnounceV2`, address loop body): parse one
announced address string; on `url.Parse` or `net.SplitHostPort` failure skip
it (`none`); when the host part is empty, fill it from the rendered source
IP; stamp it with `now`.  `ip` is the source IP already rendered to a string
(`addr.IP.To4()`/`To16()` then `String()`). -/
def normAddr (ip : Str) (now : Int) (s : Str) : Option address :=
  match urlParse s with
  | none => none
  | some uri =>
    match splitHostPort uri.host with
    | none => none
    | some (host, port) =>
      let uri' : URL :=
        if host.length = 0 then ⟨uri.scheme, joinHostPort ip port⟩ else uri
      some ⟨urlString uri', now⟩

/-- `main.go:200-220`: the address list an announce contributes to `update`.
Addresses that fail to parse are dropped; the rest are normalized. -/
def announceAddrs (ip : Str) (now : Int) (addrs : List Str) : List address :=
  addrs.filterMap (normAddr ip now)

/-- Result of the query handler: the Announce-shaped reply it attempts to
send, whether the send succeeded, and whether `answered` was incremented. -/
structure QueryOutcome where
  attempted : Option (List Str × List relay)
  sent : Bool
  answeredInc : Bool
deriving Repr, DecidableEq

/-- `main.go:262-310` (`handleQueryV2`, after the id was resolved and the
`queries` counter bumped): read the stored record; when it has at least one
address, keep only those within the retention window; when the filtered list
is non-empty, build an Announce reply echoing the queried id with those
addresses and the stored relays, and attempt the encode+send, incrementing
`answered` only when it succeeds.  `sendOk` models whether the
`MarshalXDR`/`WriteToUDP` pair succeeds. -/
def handleQuery (stored : addressList) (now : Int) (sendOk : Bool) : QueryOutcome :=
  if stored.addresses.length > 0 then
    let fresh := stored.addresses.filter (fun a => !(now - a.seen > cacheLimitSeconds))
    if fresh.length = 0 then
      ⟨none, false, false⟩
    else
      ⟨some (fresh.map (·.address), stored.relays), sendOk, sendOk⟩
  else
    ⟨none, false, false⟩

/-- `main.go:420-425` (`clean`, inner loop): the in-place swap-remove scan
over one record's addresses.  At index `i`: when the address has expired,
overwrite slot `i` with the element at index `len-1`, truncate by one, and
move on to `i+1` — the element just swapped into slot `i` is not
re-examined.  The `fuel` argument only makes the recursion structural: the
loop runs at most `l.length` iterations because `i` increments every step
and the length never grows, so with `fuel = l.length` (see `pruneAddrs`)
fuel exhaustion coincides with the loop condition `i < len` failing. -/
def pruneGo (now : Int) : Nat → Nat → List address → List address
  | 0, _, l => l
  | fuel + 1, i, l =>
    if h : i < l.length then
      if now - (l.get ⟨i, h⟩).seen > cacheLimitSeconds then
        pruneGo now fuel (i + 1)
          ((l.set i (l.get ⟨l.length - 1, by omega⟩)).dropLast)
      else
        pruneGo now fuel (i + 1) l
    else l

/-- The pruning scan entered at index 0, as `clean` does. -/
def pruneAddrs (now : Int) (l : List address) : List address :=
  pruneGo now l.length 0 l

/-- `main.go:414-443` (`clean`, per record): prune the record's addresses;
`none` when the pruned list is empty (record deleted), otherwise the record
as it remains in the registry (written back when the list shrank). -/
def cleanRecord (now : Int) (al : addressList) : Option addressList :=
  let newAddrs := pruneAddrs now al.addresses
  if newAddrs.length = 0 then none
  else some ⟨newAddrs, al.relays⟩

/-- `main.go:412-445` (`clean`, one pass): sweep every record of the
registry (modelled as an association list of device key and record),
returning the surviving registry and the `kept`/`deleted` counters. -/
def cleanPass (now : Int) :
    List (Str × addressList) → List (Str × addressList) × Int × Int
  | [] => ([], 0, 0)
  | (k, v) :: rest =>
    let (reg', kept, deleted) := cleanPass now rest
    match cleanRecord now v with
    | none => (reg', kept, deleted + 1)
    | some v' => ((k, v') :: reg', kept + 1, deleted)

-- Sanity: two expired addresses — the swap-remove scan leaves one behind.
example :
    pruneAddrs 7200 [⟨str "a", 0⟩, ⟨str "b", 0⟩] = [⟨str "b", 0⟩] := by decide

/-!
## Rate limiter

`main.go:153-179` (`limit`) with the `juju/ratelimit` token bucket.  Time is
measured in fill intervals (one interval = `10s / limitAvg`); the bucket
refills one token (the quantum `ratelimit.NewBucket` uses) per elapsed
interval, capped at the capacity, and `NewBucket` starts full.
-/

/-- Token-bucket state: capacity, currently available tokens, and the tick
(fill-interval count) at which `avail` was last adjusted. -/
structure Bucket where
  capacity : Int
  avail : Int
  lastTick : Nat
deriving Repr, DecidableEq

/-- `ratelimit.NewBucket`: a bucket created at tick `now` starts full. -/
def newBucket (capacity : Int) (now : Nat) : Bucket :=
  ⟨capacity, capacity, now⟩

/-- `ratelimit.Bucket.TakeAvailable(1)`: refill one token per elapsed tick
(capped at capacity), then take one token if one is available.  Returns the
number of tokens taken (0 or 1) and the updated bucket. -/
def takeAvailable1 (b : Bucket) (now : Nat) : Int × Bucket :=
  let avail := min b.capacity (b.avail + (now - b.lastTick : Nat))
  if avail ≥ 1 then (1, ⟨b.capacity, avail - 1, now⟩)
  else (0, ⟨b.capacity, avail, now⟩)

/-- The limiter's shared state: the bucket cache keyed by source-IP string
(the LRU bound is irrelevant to the claims and not modelled) and the
`limited` counter. -/
structure LimState where
  cache : List (Str × Bucket)
  limited : Nat
deriving Repr, DecidableEq

/-- Association-list lookup, as `limiter.Get`. -/
def cacheGet (key : Str) : List (Str × Bucket) → Option Bucket
  | [] => none
  | (k, b) :: rest => if k = key then some b else cacheGet key rest

/-- Store the bucket back under `key` (the Go bucket is mutated through a
pointer held in the cache). -/
def cacheSet (key : Str) (b : Bucket) : List (Str × Bucket) → List (Str × Bucket)
  | [] => []
  | (k, b0) :: rest =>
    if k = key then (k, b) :: rest else (k, b0) :: cacheSet key b rest

/-- `main.go:153-179` (`limit`): returns `true` when the packet is rate
limited (dropped).  Cache hit: take one token; on failure increment
`limited` and reject.  Cache miss: insert a fresh full bucket and admit
without taking a token. -/
def limit (burst : Int) (st : LimState) (key : Str) (now : Nat) : Bool × LimState :=
  match cacheGet key st.cache with
  | some bkt =>
    let (taken, bkt') := takeAvailable1 bkt now
    if taken ≠ 1 then (true, ⟨cacheSet key bkt' st.cache, st.limited + 1⟩)
    else (false, ⟨cacheSet key bkt' st.cache, st.limited⟩)
  | none =>
    (false, ⟨(key, newBucket burst now) :: st.cache, st.limited⟩)

/-- Feed a sequence of packets from one source, each with its arrival tick;
collect the `limit` results. -/
def runPackets (burst : Int) (key : Str) (st : LimState) :
    List Nat → List Bool × LimState
  | [] => ([], st)
  | t :: ts =>
    let (r, st') := limit burst st key t
    let (rs, st'') := runPackets burst key st' ts
    (r :: rs, st'')

-- Sanity: default burst 10, twelve packets in the same instant — the first
-- eleven are admitted (`false` = not limited), the twelfth is rejected.
example :
    (runPackets 10 (str "1.2.3.4") ⟨[], 0⟩ (List.replicate 12 0)).1
    = List.replicate 11 false ++ [true] := by decide

/-!
## Dispatch loop

`main.go:107-150`: the per-datagram control flow of `main`'s receive loop,
as a function from the facts about one received datagram to the terminal
branch taken.  `readErr` models `conn.ReadFromUDP` returning an error;
note the code checks the rate limiter BEFORE the read error.
-/

/-- The facts about one received datagram that decide the control flow. -/
structure Datagram where
  readErr : Bool
  isLimited : Bool
  n : Nat
  magic : Nat
  handlerErr : Bool
deriving Repr, DecidableEq

/-- The magic constants (`discover.AnnouncementMagic`, `discover.QueryMagic`
from syncthing's discover package, v2 protocol). -/
def announcementMagic : Nat := 0x029E4C77
def queryMagic : Nat := 0x2CA856F5

/-- Terminal branch of one iteration of the receive loop. -/
inductive StepResult where
  | fatal
  | droppedLimited
  | droppedShort
  | announceHandled (logged : Bool)
  | queryHandled (logged : Bool)
  | unknown
deriving Repr, DecidableEq

/-- `main.go:107-150`: one iteration of the receive loop.  Order matters:
the rate-limit drop precedes the read-error check, the read-error check
calls `log.Fatal`, then short packets are dropped, then the magic switch
runs a handler whose error is at most logged. -/
def dispatchStep (d : Datagram) : StepResult :=
  if d.isLimited then .droppedLimited
  else if d.readErr then .fatal
  else if d.n < 4 then .droppedShort
  else if d.magic = announcementMagic then .announceHandled d.handlerErr
  else if d.magic = queryMagic then .queryHandled d.handlerErr
  else .unknown

/-!
## Helper lemmas
-/

theorem splitSeq_append {sep l a b : Str} (h : splitSeq sep l = some (a, b)) :
    a ++ sep ++ b = l := by
  induction l generalizing a b with
  | nil => simp [splitSeq] at h
  | cons c cs ih =>
    rw [splitSeq] at h
    by_cases hp : sep.isPrefixOf (c :: cs)
    · rw [if_pos hp, Option.some_inj] at h
      obtain ⟨ha, hb⟩ := Prod.mk.injEq .. ▸ h
      obtain ⟨t, ht⟩ := List.isPrefixOf_iff_prefix.mp hp
      subst ha
      rw [← hb, List.nil_append, ← ht, List.drop_left]
    · rw [if_neg hp] at h
      cases hrec : splitSeq sep cs with
      | none => rw [hrec] at h; exact absurd h (by simp)
      | some p =>
        obtain ⟨a', b'⟩ := p
        rw [hrec, Option.some_inj] at h
        obtain ⟨ha, hb⟩ := Prod.mk.injEq .. ▸ h
        subst hb
        rw [← ha, List.cons_append, List.cons_append, ih hrec]

theorem urlString_urlParse {s : Str} {u : URL} (h : urlParse s = some u) :
    urlString u = s := by
  rw [urlParse] at h
  cases hs : splitSeq (str "://") s with
  | none => rw [hs] at h; exact absurd h (by simp)
  | some p =>
    obtain ⟨sch, rest⟩ := p
    rw [hs, Option.some_inj] at h
    subst h
    exact splitSeq_append hs

theorem findMatch_some {n : Str} {ex : List address} {i : Nat}
    (h : findMatch n ex = some i) :
    ∃ ea, ex.get? i = some ea ∧ normalize22000 ea.address = some n := by
  induction ex generalizing i with
  | nil => simp [findMatch] at h
  | cons ea rest ih =>
    cases hn : normalize22000 ea.address with
    | none =>
      simp only [findMatch, hn] at h
      obtain ⟨j, hj, rfl⟩ := Option.map_eq_some'.mp h
      obtain ⟨ea', h1, h2⟩ := ih hj
      exact ⟨ea', by simpa using h1, h2⟩
    | some en =>
      simp only [findMatch, hn] at h
      by_cases he : en = n
      · rw [if_pos he, Option.some_inj] at h
        subst he; subst h
        exact ⟨ea, rfl, hn⟩
      · rw [if_neg he] at h
        obtain ⟨j, hj, rfl⟩ := Option.map_eq_some'.mp h
        obtain ⟨ea', h1, h2⟩ := ih hj
        exact ⟨ea', by simpa using h1, h2⟩

theorem findMatch_none {n : Str} {ex : List address}
    (h : findMatch n ex = none) :
    ∀ ea ∈ ex, normalize22000 ea.address ≠ some n := by
  induction ex with
  | nil => simp
  | cons ea rest ih =>
    intro x hx
    cases hn : normalize22000 ea.address with
    | none =>
      simp only [findMatch, hn] at h
      rcases List.mem_cons.mp hx with rfl | hx'
      · rw [hn]; simp
      · exact ih (by simpa using h) x hx'
    | some en =>
      simp only [findMatch, hn] at h
      by_cases he : en = n
      · rw [if_pos he] at h; exact absurd h (by simp)
      · rw [if_neg he] at h
        rcases List.mem_cons.mp hx with rfl | hx'
        · rw [hn]; simpa using he
        · exact ih (by simpa using h) x hx'

/-!
## Claim theorems
-/

/-- C1: the claim says a single sweep pass removes every address older than
the retention window from every record.  The code's swap-remove loop
(`main.go:420-424`) increments `i` after swapping the last element into
slot `i`, so the swapped-in element is never examined.  Evaluated at a
record holding two expired addresses (both seen at 0, swept at 7200): the
pass keeps the record and it still contains the second address, whose age
7200 exceeds the window. -/
theorem c1_sweep_retains_expired_address :
    cleanPass 7200 [(str "k", ⟨[⟨str "tcp://a:1", 0⟩, ⟨str "tcp://b:1", 0⟩], []⟩)]
      = ([(str "k", ⟨[⟨str "tcp://b:1", 0⟩], []⟩)], 1, 0)
    ∧ (7200 : Int) - (0 : Int) > cacheLimitSeconds := by decide

/-- C5: a source IP with no bucket in the limiter cache is admitted
(`limit` returns `false`), a full bucket with the configured burst capacity
is inserted for it with no token consumed, and the `limited` counter is
unchanged. -/
theorem c5_first_packet_free (burst : Int) (st : LimState) (key : Str)
    (now : Nat) (h : cacheGet key st.cache = none) :
    limit burst st key now
      = (false, ⟨(key, newBucket burst now) :: st.cache, st.limited⟩)
    ∧ (newBucket burst now).avail = burst := by
  exact ⟨by simp [limit, h], rfl⟩

/-- Witness for `c5_first_packet_free` at the empty cache. -/
theorem c5_witness :
    cacheGet (str "1.2.3.4") (⟨[], 0⟩ : LimState).cache = none
    ∧ (limit 10 ⟨[], 0⟩ (str "1.2.3.4") 0
        = (false, ⟨[(str "1.2.3.4", newBucket 10 0)], 0⟩)
      ∧ (newBucket 10 0).avail = 10) :=
  ⟨rfl, c5_first_packet_free 10 ⟨[], 0⟩ (str "1.2.3.4") 0 rfl⟩

/-- C6: one sweep pass counts every record either as kept or as deleted:
`kept + deleted` equals the number of records before the pass. -/
theorem c6_kept_plus_deleted_eq_count (now : Int) (reg : List (Str × addressList)) :
    (cleanPass now reg).2.1 + (cleanPass now reg).2.2 = (reg.length : Int) := by
  induction reg with
  | nil => simp [cleanPass]
  | cons kv rest ih =>
    obtain ⟨k, v⟩ := kv
    simp only [cleanPass]
    cases hrec : cleanPass now rest with
    | mk reg' p =>
      obtain ⟨kept, deleted⟩ := p
      rw [hrec] at ih
      cases cleanRecord now v <;> simp_all <;> omega

/-- C8 counterexample: the claim says an incoming address that fails to
parse is skipped and never stored, for every `update` call.  When the
existing address list is empty the parse check inside the inner loop never
runs, so the unparseable address `"x"` (no `://`, no host:port) is appended
and stored. -/
theorem c8_counterexample_unparsed_stored :
    urlParse (str "x") = none
    ∧ update none [⟨str "x", 5⟩] [] = ⟨[⟨str "x", 5⟩], []⟩ := by decide

/-- C8 amended: when the existing address list is NON-empty, an incoming
address that fails to parse is dropped (not stored) and merging continues
with the remaining incoming addresses; when the existing list is empty,
incoming addresses are appended without being parsed. -/
theorem c8_merge_skip_amended (ex : List address) (na : address)
    (hne : ex ≠ []) (hbad : normalize22000 na.address = none) :
    mergeOne ex na = ex
    ∧ (∀ (more : List address) (r r' : List relay),
        update (some ⟨ex, r⟩) (na :: more) r' = update (some ⟨ex, r⟩) more r')
    ∧ (∀ b : address, mergeOne [] b = [b]) := by
  have h1 : mergeOne ex na = ex := by
    cases ex with
    | nil => exact absurd rfl hne
    | cons e es => simp [mergeOne, hbad]
  exact ⟨h1, fun more r r' => by simp [update, h1], fun b => rfl⟩

/-- Witness for `c8_merge_skip_amended`: one good existing address, one
unparseable incoming address. -/
theorem c8_witness :
    (([⟨str "tcp://1.2.3.4:9000", 100⟩] : List address) ≠ []
      ∧ normalize22000 (str "x") = none)
    ∧ (mergeOne [⟨str "tcp://1.2.3.4:9000", 100⟩] ⟨str "x", 5⟩
        = [⟨str "tcp://1.2.3.4:9000", 100⟩]
      ∧ (∀ (more : List address) (r r' : List relay),
          update (some ⟨[⟨str "tcp://1.2.3.4:9000", 100⟩], r⟩) (⟨str "x", 5⟩ :: more) r'
            = update (some ⟨[⟨str "tcp://1.2.3.4:9000", 100⟩], r⟩) more r')
      ∧ (∀ b : address, mergeOne [] b = [b])) :=
  ⟨⟨by decide, by decide⟩,
    c8_merge_skip_amended [⟨str "tcp://1.2.3.4:9000", 100⟩] ⟨str "x", 5⟩
      (by decide) (by decide)⟩

/-- C9 counterexample: the claim says no branch of the per-datagram path
terminates the process.  A datagram whose `conn.ReadFromUDP` returned an
error, from a source that is not rate limited, hits the `log.Fatal(err)`
inside the receive loop (`main.go:117-119`). -/
theorem c9_counterexample_read_error_fatal :
    dispatchStep ⟨true, false, 10, 0, false⟩ = .fatal := by decide

/-- C9 amended: apart from a UDP read error on a non-rate-limited datagram
(which is fatal inside the loop), no branch of the per-datagram path is
fatal: short packets, unknown magics, and announce/query handler failures
(decode, device id, storage, encode, send) all drop or log and continue. -/
theorem c9_dispatch_amended (d : Datagram) :
    (d.readErr = false → dispatchStep d ≠ .fatal)
    ∧ (d.readErr = true → d.isLimited = false → dispatchStep d = .fatal) := by
  obtain ⟨re, il, n, mg, he⟩ := d
  constructor
  · intro h
    subst h
    by_cases h1 : il = true <;> by_cases h2 : n < 4 <;>
      by_cases h3 : mg = announcementMagic <;> by_cases h4 : mg = queryMagic <;>
      simp [dispatchStep, h1, h2, h3, h4,
        show queryMagic ≠ announcementMagic by decide]
  · intro h1 h2
    subst h1; subst h2
    simp [dispatchStep]

/-- Witness for `c9_dispatch_amended` at a concrete datagram. -/
theorem c9_witness :
    ((⟨false, false, 10, 0, false⟩ : Datagram).readErr = false →
      dispatchStep ⟨false, false, 10, 0, false⟩ ≠ .fatal)
    ∧ ((⟨false, false, 10, 0, false⟩ : Datagram).readErr = true →
      (⟨false, false, 10, 0, false⟩ : Datagram).isLimited = false →
      dispatchStep ⟨false, false, 10, 0, false⟩ = .fatal) :=
  c9_dispatch_amended ⟨false, false, 10, 0, false⟩

/-- C10: an address whose age is at most the retention window — in
particular exactly equal to it — is included in a query reply and kept
unchanged by a sweep; only an age strictly greater than the window is
filtered from replies and pruned (here: the record's only address, so the
record is deleted). -/
theorem c10_boundary_age_fresh (a : address) (relays : List relay)
    (now : Int) (sendOk : Bool) :
    (now - a.seen ≤ cacheLimitSeconds →
      (handleQuery ⟨[a], relays⟩ now sendOk).attempted = some ([a.address], relays)
      ∧ cleanRecord now ⟨[a], relays⟩ = some ⟨[a], relays⟩)
    ∧ (now - a.seen > cacheLimitSeconds →
      handleQuery ⟨[a], relays⟩ now sendOk = ⟨none, false, false⟩
      ∧ cleanRecord now ⟨[a], relays⟩ = none) := by
  constructor
  · intro h
    have hnot : ¬(now - a.seen > cacheLimitSeconds) := by omega
    constructor
    · simp [handleQuery, hnot]
    · simp [cleanRecord, pruneAddrs, pruneGo, hnot]
  · intro h
    constructor
    · simp [handleQuery, h]
    · simp [cleanRecord, pruneAddrs, pruneGo, h]

/-- Witness for `c10_boundary_age_fresh` at an age of exactly 3600 s. -/
theorem c10_witness :
    ((3600 : Int) - (0 : Int) ≤ cacheLimitSeconds →
      (handleQuery ⟨[⟨str "tcp://1.2.3.4:9000", 0⟩], []⟩ 3600 true).attempted
        = some ([str "tcp://1.2.3.4:9000"], [])
      ∧ cleanRecord 3600 ⟨[⟨str "tcp://1.2.3.4:9000", 0⟩], []⟩
        = some ⟨[⟨str "tcp://1.2.3.4:9000", 0⟩], []⟩)
    ∧ ((3600 : Int) - (0 : Int) > cacheLimitSeconds →
      handleQuery ⟨[⟨str "tcp://1.2.3.4:9000", 0⟩], []⟩ 3600 true
        = ⟨none, false, false⟩
      ∧ cleanRecord 3600 ⟨[⟨str "tcp://1.2.3.4:9000", 0⟩], []⟩ = none) :=
  c10_boundary_age_fresh ⟨str "tcp://1.2.3.4:9000", 0⟩ [] 3600 true

/-- C2: merging one incoming address into an existing record: if some
existing address, after substituting port 22000 into both URIs' host:port,
equals the port-normalized new address, that existing entry (address string
and timestamp) is replaced in place; otherwise the new address is appended.
Consequently announcing the same address twice stores it once with the
later timestamp, and announcing `tcp://1.2.3.4:9000` then
`tcp://1.2.3.4:9001` stores exactly the second. -/
theorem c2_merge_replace_or_append (ex : List address) (na : address) (n : Str)
    (hna : normalize22000 na.address = some n) :
    ((∃ ea ∈ ex, normalize22000 ea.address = some n) →
      ∃ i ea, ex.get? i = some ea ∧ normalize22000 ea.address = some n
        ∧ mergeOne ex na = ex.set i na)
    ∧ ((∀ ea ∈ ex, normalize22000 ea.address ≠ some n) →
      mergeOne ex na = ex ++ [na])
    ∧ update (some (update none [⟨str "tcp://1.2.3.4:9000", 100⟩] []))
        [⟨str "tcp://1.2.3.4:9000", 200⟩] []
        = ⟨[⟨str "tcp://1.2.3.4:9000", 200⟩], []⟩
    ∧ update (some (update none [⟨str "tcp://1.2.3.4:9000", 100⟩] []))
        [⟨str "tcp://1.2.3.4:9001", 200⟩] []
        = ⟨[⟨str "tcp://1.2.3.4:9001", 200⟩], []⟩ := by
  refine ⟨?_, ?_, by decide, by decide⟩
  · rintro ⟨ea, hmem, hea⟩
    cases ex with
    | nil => simp at hmem
    | cons e es =>
      cases hf : findMatch n (e :: es) with
      | none => exact absurd hea (findMatch_none hf ea hmem)
      | some i =>
        obtain ⟨ea', h1, h2⟩ := findMatch_some hf
        exact ⟨i, ea', h1, h2, by simp [mergeOne, hna, hf]⟩
  · intro hall
    cases ex with
    | nil => simp [mergeOne]
    | cons e es =>
      cases hf : findMatch n (e :: es) with
      | some i =>
        obtain ⟨ea', h1, h2⟩ := findMatch_some hf
        exact absurd h2 (hall ea' (List.get?_mem h1))
      | none => simp [mergeOne, hna, hf]

/-- Witness for `c2_merge_replace_or_append`: one existing address at port
9000, an incoming port change to 9001. -/
theorem c2_witness :
    normalize22000 (str "tcp://1.2.3.4:9001") = some (str "tcp://1.2.3.4:22000")
    ∧ (((∃ ea ∈ [⟨str "tcp://1.2.3.4:9000", 100⟩],
          normalize22000 (address.address ea) = some (str "tcp://1.2.3.4:22000")) →
        ∃ i ea, List.get? [⟨str "tcp://1.2.3.4:9000", 100⟩] i = some ea
          ∧ normalize22000 (address.address ea) = some (str "tcp://1.2.3.4:22000")
          ∧ mergeOne [⟨str "tcp://1.2.3.4:9000", 100⟩] ⟨str "tcp://1.2.3.4:9001", 200⟩
            = List.set [⟨str "tcp://1.2.3.4:9000", 100⟩] i ⟨str "tcp://1.2.3.4:9001", 200⟩)
      ∧ ((∀ ea ∈ [⟨str "tcp://1.2.3.4:9000", 100⟩],
          normalize22000 (address.address ea) ≠ some (str "tcp://1.2.3.4:22000")) →
        mergeOne [⟨str "tcp://1.2.3.4:9000", 100⟩] ⟨str "tcp://1.2.3.4:9001", 200⟩
          = [⟨str "tcp://1.2.3.4:9000", 100⟩] ++ [⟨str "tcp://1.2.3.4:9001", 200⟩])
      ∧ update (some (update none [⟨str "tcp://1.2.3.4:9000", 100⟩] []))
          [⟨str "tcp://1.2.3.4:9000", 200⟩] []
          = ⟨[⟨str "tcp://1.2.3.4:9000", 200⟩], []⟩
      ∧ update (some (update none [⟨str "tcp://1.2.3.4:9000", 100⟩] []))
          [⟨str "tcp://1.2.3.4:9001", 200⟩] []
          = ⟨[⟨str "tcp://1.2.3.4:9001", 200⟩], []⟩) :=
  ⟨by decide,
    c2_merge_replace_or_append [⟨str "tcp://1.2.3.4:9000", 100⟩]
      ⟨str "tcp://1.2.3.4:9001", 200⟩ (str "tcp://1.2.3.4:22000") (by decide)⟩

/-- C7: an announced address whose URI parses but has an empty host gets
the host filled from the rendered UDP source IP (joined with the announced
port) before storage; an address with a non-empty host is stored verbatim.
Concretely, `tcp://:4000` announced from `203.0.113.5` is stored as
`tcp://203.0.113.5:4000`. -/
theorem c7_announce_host_fill (ip : Str) (now : Int) (s : Str) (u : URL)
    (host port : Str) (hu : urlParse s = some u)
    (hsp : splitHostPort u.host = some (host, port)) :
    (host = [] →
      normAddr ip now s = some ⟨urlString ⟨u.scheme, joinHostPort ip port⟩, now⟩)
    ∧ (host ≠ [] → normAddr ip now s = some ⟨s, now⟩)
    ∧ announceAddrs (str "203.0.113.5") now [str "tcp://:4000"]
        = [⟨str "tcp://203.0.113.5:4000", now⟩] := by
  refine ⟨?_, ?_, ?_⟩
  · intro h
    subst h
    simp [normAddr, hu, hsp]
  · intro h
    have hlen : ¬host.length = 0 := by simpa using h
    have hrt : urlString u = s := urlString_urlParse hu
    simp [normAddr, hu, hsp, hlen, hrt]
  · rfl

/-- Witness for `c7_announce_host_fill` at `tcp://:4000` (empty host) —
and, through the verbatim branch, at any parsed non-empty host via the
same hypotheses. -/
theorem c7_witness :
    (urlParse (str "tcp://:4000") = some ⟨str "tcp", str ":4000"⟩
      ∧ splitHostPort (str ":4000") = some ([], str "4000"))
    ∧ ((([] : Str) = [] →
        normAddr (str "203.0.113.5") 77 (str "tcp://:4000")
          = some ⟨urlString ⟨str "tcp", joinHostPort (str "203.0.113.5") (str "4000")⟩, 77⟩)
      ∧ (([] : Str) ≠ [] →
        normAddr (str "203.0.113.5") 77 (str "tcp://:4000")
          = some ⟨str "tcp://:4000", 77⟩)
      ∧ announceAddrs (str "203.0.113.5") 77 [str "tcp://:4000"]
          = [⟨str "tcp://203.0.113.5:4000", 77⟩]) :=
  ⟨⟨by decide, by decide⟩,
    c7_announce_host_fill (str "203.0.113.5") 77 (str "tcp://:4000")
      ⟨str "tcp", str ":4000"⟩ [] (str "4000") (by decide) (by decide)⟩

/-- Evaluating one step of `runPackets`. -/
theorem runPackets_cons (burst : Int) (key : Str) (st : LimState) (t : Nat)
    (ts : List Nat) :
    runPackets burst key st (t :: ts)
      = ((limit burst st key t).1
            :: (runPackets burst key (limit burst st key t).2 ts).1,
         (runPackets burst key (limit burst st key t).2 ts).2) := by
  cases hl : limit burst st key t with
  | mk r st' =>
    cases hr : runPackets burst key st' ts with
    | mk rs st'' => simp [runPackets, hl, hr]

/-- A cache hit with at least one token available (after refill) admits the
packet and leaves the decremented, re-stamped bucket in the cache. -/
theorem limit_hit (burst : Int) (key : Str) (b : Bucket) (m : Nat) (t : Nat)
    (h1 : 1 ≤ min b.capacity (b.avail + ((t - b.lastTick : Nat) : Int))) :
    limit burst ⟨[(key, b)], m⟩ key t
      = (false,
         ⟨[(key, ⟨b.capacity,
             min b.capacity (b.avail + ((t - b.lastTick : Nat) : Int)) - 1, t⟩)],
          m⟩) := by
  simp [limit, cacheGet, takeAvailable1, cacheSet, le_min_iff.mp h1]

/-- Packets from one source whose arrival ticks strictly increase (i.e. at
most one packet per fill interval — at or under the configured average
rate) are all admitted, given the bucket starts non-negative with positive
capacity. -/
theorem bucketChain (key : Str) (ticks : List Nat) :
    ∀ (b : Bucket) (m : Nat), 1 ≤ b.capacity → 0 ≤ b.avail →
      List.Chain' (· < ·) (b.lastTick :: ticks) →
      (runPackets b.capacity key ⟨[(key, b)], m⟩ ticks).1
        = List.replicate ticks.length false := by
  induction ticks with
  | nil => intro b m _ _ _; simp [runPackets]
  | cons t ts ih =>
    intro b m hcap havail hchain
    have hlt : b.lastTick < t := (List.chain'_cons.mp hchain).1
    have hchain' : List.Chain' (· < ·) (t :: ts) := (List.chain'_cons.mp hchain).2
    have hcast : (1 : Int) ≤ ((t - b.lastTick : Nat) : Int) := by omega
    have h1 : 1 ≤ min b.capacity (b.avail + ((t - b.lastTick : Nat) : Int)) :=
      le_min hcap (by omega)
    have hA0 : 0 ≤ min b.capacity (b.avail + ((t - b.lastTick : Nat) : Int)) - 1 := by
      omega
    rw [runPackets_cons, limit_hit b.capacity key b m t h1]
    have := ih ⟨b.capacity,
        min b.capacity (b.avail + ((t - b.lastTick : Nat) : Int)) - 1, t⟩ m
      hcap (by exact hA0) hchain'
    simp only [List.length_cons, List.replicate_succ]
    exact congrArg (false :: ·) this

/-- C3 amended: every packet sequence from a brand-new source whose rate is
at or under the configured average (strictly increasing arrival ticks, one
tick = one fill interval `10s/limitAvg`) is fully admitted — including the
first packet, which creates the bucket without consuming a token — and at
the default burst of 10, of twelve immediate packets from a new IP the
first eleven (= burst + 2 - 1) are admitted and the twelfth (the
`(burst+2)`-th) is the first rejected. -/
theorem c3_rate_limiter_amended (burst : Int) (key : Str) (ticks : List Nat)
    (hb : 1 ≤ burst) (hc : List.Chain' (· < ·) ticks) :
    (runPackets burst key ⟨[], 0⟩ ticks).1 = List.replicate ticks.length false
    ∧ (runPackets 10 (str "8.8.8.8") ⟨[], 0⟩ (List.replicate 12 0)).1
        = List.replicate 11 false ++ [true] := by
  refine ⟨?_, by decide⟩
  cases ticks with
  | nil => simp [runPackets]
  | cons t ts =>
    have hmiss : limit burst (⟨[], 0⟩ : LimState) key t
        = (false, ⟨[(key, newBucket burst t)], 0⟩) := by
      simp [limit, cacheGet]
    rw [runPackets_cons, hmiss]
    have := bucketChain key ts (newBucket burst t) 0 hb (by
        simpa [newBucket] using le_trans zero_le_one hb)
      (by simpa [newBucket] using hc)
    simp only [List.length_cons, List.replicate_succ]
    exact congrArg (false :: ·) (by simpa [newBucket] using this)

/-- C3 counterexample: with the default burst of 10, a brand-new IP sending
`burst + 1 = 11` immediate packets has ALL eleven admitted (the first
creates the bucket without consuming a token); the claim says the eleventh
is rejected. -/
theorem c3_counterexample_eleventh_packet :
    (runPackets 10 (str "1.2.3.4") ⟨[], 0⟩ (List.replicate 11 0)).1
      = List.replicate 11 false := by decide

/-- Witness for `c3_rate_limiter_amended`: three packets at ticks 0, 1, 2. -/
theorem c3_witness :
    ((1 : Int) ≤ 10 ∧ List.Chain' (· < ·) [0, 1, 2])
    ∧ ((runPackets 10 (str "7.7.7.7") ⟨[], 0⟩ [0, 1, 2]).1
          = List.replicate 3 false
      ∧ (runPackets 10 (str "8.8.8.8") ⟨[], 0⟩ (List.replicate 12 0)).1
          = List.replicate 11 false ++ [true]) :=
  ⟨⟨by norm_num, by simp [List.chain'_cons]⟩,
    c3_rate_limiter_amended 10 (str "7.7.7.7") [0, 1, 2] (by norm_num)
      (by simp [List.chain'_cons])⟩

/-- C4: for a stored record, a query reply carries exactly the addresses
within the retention window (stale ones excluded) together with the stored
relays; a reply is attempted precisely when the filtered list is non-empty,
`answered` is incremented exactly when a reply was attempted AND the
encode+send succeeded; when filtering leaves nothing, no reply and no
increment. -/
theorem c4_query_filter_and_answer (stored : addressList) (now : Int)
    (sendOk : Bool) :
    (∀ lst rel, (handleQuery stored now sendOk).attempted = some (lst, rel) →
      lst = (stored.addresses.filter
          (fun a => !(now - a.seen > cacheLimitSeconds))).map (·.address)
      ∧ rel = stored.relays
      ∧ ∀ s ∈ lst, ∃ a ∈ stored.addresses,
          a.address = s ∧ now - a.seen ≤ cacheLimitSeconds)
    ∧ (stored.addresses.filter (fun a => !(now - a.seen > cacheLimitSeconds)) ≠ [] →
      (handleQuery stored now sendOk).attempted
        = some ((stored.addresses.filter
            (fun a => !(now - a.seen > cacheLimitSeconds))).map (·.address),
          stored.relays))
    ∧ ((handleQuery stored now sendOk).answeredInc
        ↔ (handleQuery stored now sendOk).attempted ≠ none ∧ sendOk = true)
    ∧ (stored.addresses.filter (fun a => !(now - a.seen > cacheLimitSeconds)) = [] →
      handleQuery stored now sendOk = ⟨none, false, false⟩) := by
  by_cases hA : stored.addresses.length > 0
  · by_cases hF : (stored.addresses.filter
        (fun a => !(now - a.seen > cacheLimitSeconds))).length = 0
    · have hq : handleQuery stored now sendOk = ⟨none, false, false⟩ := by
        simp [handleQuery, hA, hF]
      refine ⟨?_, ?_, ?_, ?_⟩
      · intro lst rel h; rw [hq] at h; simp at h
      · intro h; exact absurd (List.length_eq_zero.mp hF) h
      · rw [hq]; simp
      · intro _; exact hq
    · have hq : handleQuery stored now sendOk
          = ⟨some ((stored.addresses.filter
              (fun a => !(now - a.seen > cacheLimitSeconds))).map (·.address),
              stored.relays), sendOk, sendOk⟩ := by
        simp [handleQuery, hA, hF]
      refine ⟨?_, ?_, ?_, ?_⟩
      · intro lst rel h
        rw [hq] at h
        simp only [Option.some_inj, Prod.mk.injEq] at h
        obtain ⟨h1, h2⟩ := h
        refine ⟨h1.symm, h2.symm, ?_⟩
        intro s hs
        rw [← h1] at hs
        obtain ⟨a, haf, rfl⟩ := List.mem_map.mp hs
        obtain ⟨hmem, hpred⟩ := List.mem_filter.mp haf
        refine ⟨a, hmem, rfl, ?_⟩
        simpa using hpred
      · intro _; rw [hq]
      · rw [hq]; cases sendOk <;> simp
      · intro h; rw [h] at hF; simp at hF
  · have h0 : stored.addresses = [] := List.length_eq_zero.mp (by omega)
    have hq : handleQuery stored now sendOk = ⟨none, false, false⟩ := by
      simp [handleQuery, hA]
    refine ⟨?_, ?_, ?_, ?_⟩
    · intro lst rel h; rw [hq] at h; simp at h
    · intro h; rw [h0] at h; simp at h
    · rw [hq]; simp
    · intro _; exact hq

/-- Witness for `c4_query_filter_and_answer`: a record with one fresh
address, queried with a successful send. -/
theorem c4_witness :
    (∀ lst rel,
      (handleQuery ⟨[⟨str "a:1", 10⟩], []⟩ 20 true).attempted = some (lst, rel) →
      lst = ([(⟨str "a:1", 10⟩ : address)].filter
          (fun a => !(20 - a.seen > cacheLimitSeconds))).map (·.address)
      ∧ rel = ([] : List relay)
      ∧ ∀ s ∈ lst, ∃ a ∈ [(⟨str "a:1", 10⟩ : address)],
          a.address = s ∧ 20 - a.seen ≤ cacheLimitSeconds)
    ∧ ([(⟨str "a:1", 10⟩ : address)].filter (fun a => !(20 - a.seen > cacheLimitSeconds)) ≠ [] →
      (handleQuery ⟨[⟨str "a:1", 10⟩], []⟩ 20 true).attempted
        = some (([(⟨str "a:1", 10⟩ : address)].filter
            (fun a => !(20 - a.seen > cacheLimitSeconds))).map (·.address), []))
    ∧ ((handleQuery ⟨[⟨str "a:1", 10⟩], []⟩ 20 true).answeredInc
        ↔ (handleQuery ⟨[⟨str "a:1", 10⟩], []⟩ 20 true).attempted ≠ none
          ∧ true = true)
    ∧ ([(⟨str "a:1", 10⟩ : address)].filter (fun a => !(20 - a.seen > cacheLimitSeconds)) = [] →
      handleQuery ⟨[⟨str "a:1", 10⟩], []⟩ 20 true = ⟨none, false, false⟩) :=
  c4_query_filter_and_answer ⟨[⟨str "a:1", 10⟩], []⟩ 20 true
